import Mathlib

/-!
Verification development for the ENSIBS database-security client/server
(`client.py` / `server.py`): a client stores salaries dual-encrypted
(Paillier additive ciphertext + order-preserving ciphertext) in a MySQL
table via a socket protocol, and the server performs blind comparison
(code 3) and blind addition (code 4) on the stored ciphertexts.

The embedding models, straight from the source:
  - the JSON frames exchanged on the wire (`json.dumps` / `json.loads`),
  - the server's `Instruction` dispatcher (`execute_instruction` and the
    per-code handlers), including its exception-to-result-code boundaries,
  - the `Employees` table (`id INT AUTO_INCREMENT, phe_salary TEXT,
    ope_salary TEXT`) and the two SQL queries the handlers issue,
  - the server session loop (`app`) with its send/retry behaviour,
  - the client's frame construction (`send_instruction`) and result
    dispatch (`read_result`),
  - the session-setup paths (`Keys.generate`, `send_public_key`,
    `rebuild_pailler_public_key`).

The Paillier/OPE primitives themselves are external libraries (`phe`,
`pyope`); they are abstracted as integer-valued functions, with the
additive-homomorphism contract (decrypt of a combination is the sum of
the plaintexts) taken as a hypothesis or instantiated by a toy scheme
satisfying the same contract where a closed evaluation is needed.
-/

namespace DbSec

/-- JSON-like values exchanged on the wire: the payloads produced by
`json.dumps` and consumed by `json.loads` in `client.py` / `server.py`
are strings, arbitrary-precision integers, objects and arrays. -/
inductive JVal where
  | jstr : String → JVal
  | jnum : Int → JVal
  | jobj : List (String × JVal) → JVal
  | jarr : List JVal → JVal

/-- First-match association lookup inside a JSON object. -/
def lookupKey (k : String) : List (String × JVal) → Option JVal
  | [] => none
  | (k', v) :: rest => if k' = k then some v else lookupKey k rest

/-- Python subscript `x[k]` with a string key: succeeds only on a mapping
that has the key; a missing key (KeyError) or a non-mapping value
(TypeError) raises, modelled as `none`. -/
def jget : JVal → String → Option JVal
  | .jobj l, k => lookupKey k l
  | _, _ => none

/-- Exception-flavoured variant of `jget`: subscripting in exception-prone
positions of the Python code. -/
def jgetE (j : JVal) (k : String) : Except Unit JVal :=
  match jget j k with
  | some v => .ok v
  | none => .error ()

/-- Lift an `Option` into the exception monad (IndexError / KeyError /
ValueError sites in the Python code). -/
def liftO : Option α → Except Unit α
  | some a => .ok a
  | none => .error ()

/-- Decimal digit value of a character, `none` for non-digits. -/
def digitVal (c : Char) : Option Nat :=
  if 48 ≤ c.toNat ∧ c.toNat ≤ 57 then some (c.toNat - 48) else none

/-- Accumulate the value of a digit string; fails on any non-digit. -/
def digitsVal : List Char → Nat → Option Nat
  | [], acc => some acc
  | c :: cs, acc =>
    match digitVal c with
    | some d => digitsVal cs (acc * 10 + d)
    | none => none

/-- Python `int(...)` applied to a string: an optional minus sign followed
by a non-empty run of decimal digits; anything else raises ValueError
(`none`). -/
def pyParseInt (s : String) : Option Int :=
  match s.data with
  | [] => none
  | '-' :: cs =>
    (match cs with
     | [] => none
     | _ :: _ => (digitsVal cs 0).map (fun n => -(n : Int)))
  | c :: cs =>
    (match digitVal c with
     | some d => (digitsVal cs d).map (fun n => (n : Int))
     | none => none)

/-- Python `int(x)` on a JSON value: an integer is returned as is, a string
is parsed as a decimal integer, anything else (mapping, sequence) raises
TypeError. -/
def pyInt : JVal → Except Unit Int
  | .jnum n => .ok n
  | .jstr s => liftO (pyParseInt s)
  | _ => .error ()

/-- Python `str(x)` as used in `add_employee` (`server.py` line 124): the
values it is applied to are the numeric ciphertexts of the `data` mapping
(or strings); the composite cases never occur on those fields and are
rendered as fixed markers. -/
def pyStr : JVal → String
  | .jstr s => s
  | .jnum n => toString n
  | .jobj _ => "<dict>"
  | .jarr _ => "<list>"

/-- Strict lexicographic string comparison by code point: the order MySQL
applies when it sorts the `ope_salary TEXT` column
(`ORDER BY ope_salary DESC`); on the ASCII digit strings the server
stores, the `utf8mb4_general_ci` collation coincides with code-point
order. -/
def strLtB (s t : String) : Bool := decide (s.data < t.data)

/-- One row of the `Employees` table created in `_connect_to_db`
(`server.py` lines 211-214): `id INT AUTO_INCREMENT PRIMARY KEY,
phe_salary TEXT, ope_salary TEXT` — both ciphertexts are persisted as
text. -/
structure Record where
  id : Nat
  phe_salary : String
  ope_salary : String
deriving DecidableEq, Repr

/-- The `Employees` table plus the auto-increment counter (MySQL starts
at 1). -/
structure Db where
  rows : List Record
  nextId : Nat
deriving DecidableEq, Repr

/-- The freshly created empty store. -/
def db0 : Db := ⟨[], 1⟩

/-- The server-side Paillier public key rebuilt from the wire: only the
modulus, no decryption capability (`phe.PaillierPublicKey`). -/
structure PubKey where
  n : Int
deriving DecidableEq, Repr

/-- Keep the row whose `ope_salary` TEXT sorts later (strictly); ties keep
the earlier row (MySQL leaves the tie order unspecified). -/
def pickMax (best x : Record) : Record :=
  if strLtB best.ope_salary x.ope_salary then x else best

/-- `SELECT id FROM Employees WHERE id IN (a, b) ORDER BY ope_salary DESC
LIMIT 1` followed by `fetchone()[0]` (`compare_employees`, `server.py`
lines 131-135).  `ope_salary` is a TEXT column, so the ordering is the
string ordering; `none` models `fetchone()` returning no row (the
subsequent subscript then raises). -/
def selectTopIdByOpe (a b : Int) (db : Db) : Option Nat :=
  match db.rows.filter (fun r => ((r.id : Int) == a) || ((r.id : Int) == b)) with
  | [] => none
  | r :: rs => some ((rs.foldl pickMax r).id)

/-- `SELECT phe_salary FROM Employees WHERE id=a OR id=b` followed by
`fetchall()` (`get_salaries_sum`, `server.py` lines 139-142). -/
def selectPheByIds (a b : Int) (db : Db) : List String :=
  (db.rows.filter (fun r => ((r.id : Int) == a) || ((r.id : Int) == b))).map Record.phe_salary

/-- Result list of `quit` (`server.py` lines 109-113). -/
def quitResult : List (String × JVal) :=
  [("result", .jstr "0"), ("data", .jstr "quit")]

/-- Result list of `get_table` (`server.py` lines 115-119): `SHOW TABLES;`
then `fetchall()`, which serializes as a list of one-element lists. -/
def getTableResult : List (String × JVal) :=
  [("result", .jstr "0"), ("data", .jarr [.jarr [.jstr "Employees"]])]

/-- Result list of `wrong_instruction_value` (`server.py` lines 151-155). -/
def wrongInstructionResult : List (String × JVal) :=
  [("result", .jstr "21"), ("data", .jstr "wrong instruction value")]

/-- `Instruction.add_employee` (`server.py` lines 121-127): read the two
ciphertext fields from the instruction payload, `str` them and INSERT a
new row; the store assigns the next sequential id. -/
def add_employee (idata : JVal) (db : Db) : Except Unit (List (String × JVal) × Db) := do
  let d ← jgetE idata "data"
  let p ← jgetE d "paillier_salary"
  let o ← jgetE d "ope_salary"
  .ok ([("result", .jstr "0"), ("data", .jstr "OK")],
    ⟨db.rows ++ [⟨db.nextId, pyStr p, pyStr o⟩], db.nextId + 1⟩)

/-- `Instruction.compare_employees` (`server.py` lines 129-135): coerce the
two ids, run the ORDER BY query, and build the success message (note the
wording of line 135: "has a higher salary"). -/
def compare_employees (idata : JVal) (db : Db) : Except Unit (List (String × JVal) × Db) := do
  let d ← jgetE idata "data"
  let a ← pyInt (← jgetE d "id_1")
  let b ← pyInt (← jgetE d "id_2")
  let w ← liftO (selectTopIdByOpe a b db)
  .ok ([("result", .jstr "0"),
        ("data", .jstr ("Id " ++ toString w ++ " has a higher salary"))], db)

/-- `Instruction.get_salaries_sum` (`server.py` lines 137-149): fetch the
`phe_salary` column for the two ids, coerce `results[0][0]` and
`results[1][0]` to int (IndexError if fewer than two rows), rebuild the
two `EncryptedNumber`s under the rebuilt public key and add them.  The
library addition is abstracted as `combine`; with no rebuilt key
(`key = none`) the addition raises (AttributeError on `None`). -/
def get_salaries_sum (combine : PubKey → Int → Int → Int) (key : Option PubKey)
    (idata : JVal) (db : Db) : Except Unit (List (String × JVal) × Db) := do
  let d ← jgetE idata "data"
  let a ← pyInt (← jgetE d "id_1")
  let b ← pyInt (← jgetE d "id_2")
  let results := selectPheByIds a b db
  let s1 ← liftO (results.get? 0)
  let c1 ← liftO (pyParseInt s1)
  let s2 ← liftO (results.get? 1)
  let c2 ← liftO (pyParseInt s2)
  let pk ← liftO key
  .ok ([("result", .jstr "0"), ("data", .jnum (combine pk c1 c2))], db)

/-- The body of the `try` block of `Instruction.execute_instruction`
(`server.py` lines 84-102): coerce the `instruction` field to int and
dispatch on its value; the fall-through arm is
`wrong_instruction_value`. -/
def dispatchHandler (combine : PubKey → Int → Int → Int) (key : Option PubKey)
    (code : Int) (idata : JVal) (db : Db) : Except Unit (List (String × JVal) × Db) :=
  if code = 0 then .ok (quitResult, db)
  else if code = 1 then .ok (getTableResult, db)
  else if code = 2 then add_employee idata db
  else if code = 3 then compare_employees idata db
  else if code = 4 then get_salaries_sum combine key idata db
  else .ok (wrongInstructionResult, db)

/-- Coerce the `instruction` field and run the matching handler. -/
def executeCore (combine : PubKey → Int → Int → Int) (key : Option PubKey)
    (idata : JVal) (db : Db) : Except Unit (Int × List (String × JVal) × Db) := do
  let v ← jgetE idata "instruction"
  let code ← pyInt v
  let rdb ← dispatchHandler combine key code idata db
  .ok (code, rdb.1, rdb.2)

/-- Outcome of one `execute_instruction` call: the result mapping that will
be sent, the store afterwards, the dispatcher's `self.instruction`
field, and the boolean the method returns. -/
structure ExecOut where
  result : List (String × JVal)
  db : Db
  instruction : Option Int
  ok : Bool

/-- `Instruction.execute_instruction` (`server.py` lines 82-107): any
exception inside the `try` block is caught at the instruction boundary,
`self.instruction` is reset to `None`, the result code is set to `'2'`
(a JSON *string*, as everywhere in the server) and `False` is
returned. -/
def execute_instruction (combine : PubKey → Int → Int → Int) (key : Option PubKey)
    (idata : JVal) (db : Db) : ExecOut :=
  match executeCore combine key idata db with
  | .ok (code, r, db') => ⟨r, db', some code, true⟩
  | .error _ => ⟨[("result", .jstr "2")], db, none, false⟩

/-- One round of the server loop as seen from outside: what `recv` +
`json.loads` produced (`none` = `read_instruction`'s except path), and
whether the first `send` and the degraded retry `send` succeed. -/
structure Ev where
  recv : Option JVal
  send1 : Bool
  send2 : Bool

/-- The server dispatch loop of `app` (`server.py` lines 244-257) together
with `read_instruction` (lines 71-80) and `send_result` (lines 157-170),
driven by a list of rounds.  Returns the result mappings actually sent
and whether the loop was unwound by an uncaught exception (the second
`send` in `send_result`'s except block is not guarded, so its failure
propagates to `app`'s outer `try` and ends the session).  A read failure
sends `result '1'`; a send failure retries once with the degraded
`result '3'` frame and resets `self.instruction` to `None`; the loop
exits normally once `self.instruction` is 0. -/
def sessionRun (combine : PubKey → Int → Int → Int) (key : Option PubKey) :
    Option Int → Db → List Ev → List (List (String × JVal)) × Bool
  | _, _, [] => ([], false)
  | i, db, ev :: rest =>
    if i = some 0 then ([], false)
    else
      match ev.recv with
      | none =>
        if ev.send1 then
          let sab := sessionRun combine key none db rest
          ([("result", JVal.jstr "1")] :: sab.1, sab.2)
        else if ev.send2 then
          let sab := sessionRun combine key none db rest
          ([("result", JVal.jstr "3")] :: sab.1, sab.2)
        else ([], true)
      | some j =>
        let o := execute_instruction combine key j db
        if ev.send1 then
          let sab := sessionRun combine key o.instruction o.db rest
          (o.result :: sab.1, sab.2)
        else if ev.send2 then
          let sab := sessionRun combine key none o.db rest
          ([("result", JVal.jstr "3")] :: sab.1, sab.2)
        else ([], true)

/-- The frame `Instruction.send_instruction` of `client.py` (lines 83-106)
writes to the socket for each instruction code: the code as a decimal
string, plus for ADD the two ciphertexts of the entered salary (under
the abstract encryption functions `encA` — `phe` — and `encO` — `pyope`)
and for COMPARE/SUM the two id strings typed by the operator.  Codes
outside 0-4 send nothing (`none`). -/
def clientFrame (encA encO : Int → Int) (code : Int) (salary : Int)
    (id1 id2 : String) : Option JVal :=
  if code = 0 then some (.jobj [("instruction", .jstr "0")])
  else if code = 1 then some (.jobj [("instruction", .jstr "1")])
  else if code = 2 then
    some (.jobj [("instruction", .jstr "2"),
      ("data", .jobj [("paillier_salary", .jnum (encA salary)),
                      ("ope_salary", .jnum (encO salary))])])
  else if code = 3 then
    some (.jobj [("instruction", .jstr "3"),
      ("data", .jobj [("id_1", .jstr id1), ("id_2", .jstr id2)])])
  else if code = 4 then
    some (.jobj [("instruction", .jstr "4"),
      ("data", .jobj [("id_1", .jstr id1), ("id_2", .jstr id2)])])
  else none

/-- What the client does with a received result frame
(`Instruction.read_result`, `client.py` lines 146-172). -/
inductive ClientAction where
  | displayData : JVal → ClientAction
  | displaySum : Int → ClientAction
  | errReadFailed : ClientAction
  | errExecFailed : ClientAction
  | errSemantic : JVal → ClientAction
  | errSendFailed : ClientAction
  | unknownCode : JVal → ClientAction
  | crashed : ClientAction

/-- `Instruction.read_result` (`client.py` lines 146-172): Python's
structural `match` on `result_data['result']` compares against the
*integer* literals 0, 1, 2, 21, 3; any other value — in particular any
JSON string — falls to the `case _` branch ("unknown result code").
On integer 0 with the current instruction equal to 4 the client rebuilds
the `EncryptedNumber` from `int(result_data["data"])` and decrypts it;
`crashed` models the bare `except` (KeyError / ValueError) returning
`False`. -/
def read_result (instr : Option Int) (frame : JVal) : ClientAction :=
  match jget frame "result" with
  | none => .crashed
  | some r =>
    match r with
    | .jnum n =>
      if n = 0 then
        if instr = some 4 then
          match jget frame "data" with
          | none => .crashed
          | some d =>
            match pyInt d with
            | .ok c => .displaySum c
            | .error _ => .crashed
        else
          match jget frame "data" with
          | none => .crashed
          | some d => .displayData d
      else if n = 1 then .errReadFailed
      else if n = 2 then .errExecFailed
      else if n = 21 then
        (match jget frame "data" with
         | none => .crashed
         | some d => .errSemantic d)
      else if n = 3 then .errSendFailed
      else .unknownCode (.jnum n)
    | other => .unknownCode other

/-- `Key.rebuild_pailler_public_key` (`server.py` lines 53-60):
`PaillierPublicKey(n=int(frame['n']))`; a missing or non-numeric
modulus raises, the bare `except` logs it and leaves
`self.phe_public_key` unset (`none`). -/
def rebuild_pailler_public_key (frame : JVal) : Option PubKey :=
  match jget frame "n" with
  | none => none
  | some v =>
    match pyInt v with
    | .ok m => some ⟨m⟩
    | .error _ => none

/-- Observable milestones of the client's `app` setup (`client.py` lines
203-221). -/
inductive CEvent where
  | connect : CEvent
  | keygenOk : CEvent
  | keygenFailed : CEvent
  | sendKeyOk : CEvent
  | sendKeyFailed : CEvent
  | enterLoop : CEvent
deriving DecidableEq, Repr

/-- The client setup sequence of `app` (`client.py` lines 203-221),
parametrised by whether the key-generation primitive succeeds:
`_connect_to_server` runs first, then `Keys()` (whose `generate`
catches every exception and merely logs it, `client.py` lines 37-45),
then `send_public_key` (which also catches every exception; with no
generated keys the attribute access fails), and the instruction loop is
entered unconditionally. -/
def clientSetupTrace (keygenSucceeds : Bool) : List CEvent :=
  [.connect]
    ++ (if keygenSucceeds then [.keygenOk] else [.keygenFailed])
    ++ (if keygenSucceeds then [.sendKeyOk] else [.sendKeyFailed])
    ++ [.enterLoop]

/-- Observable milestones of the server's `app` setup (`server.py` lines
232-243). -/
inductive SEvent where
  | acceptConn : SEvent
  | keyRebuilt : SEvent
  | keyRebuildFailed : SEvent
  | connectDb : SEvent
  | enterLoop : SEvent
deriving DecidableEq, Repr

/-- The server setup sequence of `app` (`server.py` lines 232-243) given
the received public-key frame: accept, rebuild the Paillier public key
(`read_paillier_public_key` / `rebuild_pailler_public_key`, both of
which catch and log every exception), connect to the store, and enter
the instruction loop unconditionally. -/
def serverSetupTrace (keyFrame : JVal) : List SEvent :=
  [.acceptConn]
    ++ (match rebuild_pailler_public_key keyFrame with
        | some _ => [.keyRebuilt]
        | none => [.keyRebuildFailed])
    ++ [.connectDb, .enterLoop]

/-- Toy public key used to instantiate closed evaluations. -/
def pk0 : PubKey := ⟨1⟩

/-- Toy instantiation of the external additive-homomorphic primitive
(spec invariant 4: `decrypt (combine (encrypt a) (encrypt b)) = a + b`);
`combine` stands for `EncryptedNumber.__add__` of the `phe` library. -/
def encAdditive0 : Int → Int := fun s => 2 * s

/-- Toy decryption matching `encAdditive0`. -/
def decAdditive0 : Int → Int := fun c => c / 2

/-- Toy combination matching `encAdditive0` (ciphertext-space addition). -/
def combine0 : PubKey → Int → Int → Int := fun _ c1 c2 => c1 + c2

/-- Toy instantiation of the external order-preserving primitive
(spec invariant 3). -/
def encOrder0 : Int → Int := fun s => s + 100

/-- The toy scheme satisfies the additive-homomorphism contract the spec
states for the external `phe` library, so closed evaluations through it
are faithful to spec invariant 4. -/
theorem toy_scheme_homomorphic (a b : Int) :
    decAdditive0 (combine0 pk0 (encAdditive0 a) (encAdditive0 b)) = a + b := by
  show (2 * a + 2 * b) / 2 = a + b
  omega

/-- Inversion for a successful `Except` bind: the first action succeeded and
its continuation succeeded. -/
theorem exceptBind_ok {α β : Type} {x : Except Unit α} {f : α → Except Unit β} {b : β}
    (h : x >>= f = .ok b) : ∃ a, x = .ok a ∧ f a = .ok b := by
  cases x with
  | error e => simp [Bind.bind, Except.bind] at h
  | ok a => exact ⟨a, rfl, by simpa [Bind.bind, Except.bind] using h⟩

/-- The running `self.instruction` state influences the loop only through
the `!= 0` test: any two non-quit states drive the remaining session
identically. -/
theorem sessionRun_state_irrel (combine : PubKey → Int → Int → Int) (key : Option PubKey)
    (i i' : Option Int) (db : Db) (evs : List Ev)
    (hi : i ≠ some 0) (hi' : i' ≠ some 0) :
    sessionRun combine key i db evs = sessionRun combine key i' db evs := by
  cases evs with
  | nil => rfl
  | cons ev rest =>
    simp only [sessionRun]
    rw [if_neg hi, if_neg hi']

/-- Unfolding one fully-delivered round of the loop on a decoded frame. -/
theorem sessionRun_exec_cons (combine : PubKey → Int → Int → Int) (key : Option PubKey)
    (i : Option Int) (db : Db) (j : JVal) (rest : List Ev) (hi : i ≠ some 0) :
    sessionRun combine key i db (⟨some j, true, true⟩ :: rest)
      = ((execute_instruction combine key j db).result ::
          (sessionRun combine key (execute_instruction combine key j db).instruction
            (execute_instruction combine key j db).db rest).1,
         (sessionRun combine key (execute_instruction combine key j db).instruction
            (execute_instruction combine key j db).db rest).2) := by
  simp only [sessionRun]
  rw [if_neg hi]
  simp only [if_true]

/-- Unfolding one round whose read failed (`read_instruction`'s except
path) and whose send succeeded. -/
theorem sessionRun_badread_cons (combine : PubKey → Int → Int → Int) (key : Option PubKey)
    (i : Option Int) (db : Db) (rest : List Ev) (hi : i ≠ some 0) :
    sessionRun combine key i db (⟨none, true, true⟩ :: rest)
      = ([("result", JVal.jstr "1")] :: (sessionRun combine key none db rest).1,
         (sessionRun combine key none db rest).2) := by
  simp only [sessionRun]
  rw [if_neg hi]
  simp only [if_true]

/-- `add_employee` only ever reports success with the literal
`result '0'`. -/
theorem add_employee_result_shape {idata : JVal} {db : Db}
    {p : List (String × JVal) × Db} (h : add_employee idata db = .ok p) :
    ∃ s tl, p.1 = ("result", JVal.jstr s) :: tl := by
  simp only [add_employee] at h
  obtain ⟨d, hd, h⟩ := exceptBind_ok h
  obtain ⟨q, hq, h⟩ := exceptBind_ok h
  obtain ⟨o, ho, h⟩ := exceptBind_ok h
  cases h
  exact ⟨"0", _, rfl⟩

/-- `compare_employees` only ever reports success with the literal
`result '0'`. -/
theorem compare_employees_result_shape {idata : JVal} {db : Db}
    {p : List (String × JVal) × Db} (h : compare_employees idata db = .ok p) :
    ∃ s tl, p.1 = ("result", JVal.jstr s) :: tl := by
  simp only [compare_employees] at h
  obtain ⟨d, hd, h⟩ := exceptBind_ok h
  obtain ⟨va, hva, h⟩ := exceptBind_ok h
  obtain ⟨a, ha, h⟩ := exceptBind_ok h
  obtain ⟨vb, hvb, h⟩ := exceptBind_ok h
  obtain ⟨b, hb, h⟩ := exceptBind_ok h
  obtain ⟨w, hw, h⟩ := exceptBind_ok h
  cases h
  exact ⟨"0", _, rfl⟩

/-- `get_salaries_sum` only ever reports success with the literal
`result '0'`. -/
theorem get_salaries_sum_result_shape {combine : PubKey → Int → Int → Int}
    {key : Option PubKey} {idata : JVal} {db : Db}
    {p : List (String × JVal) × Db} (h : get_salaries_sum combine key idata db = .ok p) :
    ∃ s tl, p.1 = ("result", JVal.jstr s) :: tl := by
  simp only [get_salaries_sum] at h
  obtain ⟨d, hd, h⟩ := exceptBind_ok h
  obtain ⟨va, hva, h⟩ := exceptBind_ok h
  obtain ⟨a, ha, h⟩ := exceptBind_ok h
  obtain ⟨vb, hvb, h⟩ := exceptBind_ok h
  obtain ⟨b, hb, h⟩ := exceptBind_ok h
  obtain ⟨s1, hs1, h⟩ := exceptBind_ok h
  obtain ⟨c1, hc1, h⟩ := exceptBind_ok h
  obtain ⟨s2, hs2, h⟩ := exceptBind_ok h
  obtain ⟨c2, hc2, h⟩ := exceptBind_ok h
  obtain ⟨pk, hpk, h⟩ := exceptBind_ok h
  cases h
  exact ⟨"0", _, rfl⟩

/-- Every result mapping `execute_instruction` hands to `send_result`
starts with a `result` field whose value is a JSON *string*. -/
theorem execute_result_shape (combine : PubKey → Int → Int → Int) (key : Option PubKey)
    (j : JVal) (db : Db) :
    ∃ s tl, (execute_instruction combine key j db).result = ("result", JVal.jstr s) :: tl := by
  unfold execute_instruction
  cases hcore : executeCore combine key j db with
  | error e => exact ⟨"2", [], rfl⟩
  | ok t =>
    obtain ⟨code, r, db'⟩ := t
    simp only [executeCore] at hcore
    obtain ⟨v, hv, hcore⟩ := exceptBind_ok hcore
    obtain ⟨c, hc, hcore⟩ := exceptBind_ok hcore
    obtain ⟨rdb, hrdb, hpure⟩ := exceptBind_ok hcore
    have hr : rdb.1 = r := by
      cases hpure
      rfl
    unfold dispatchHandler at hrdb
    split at hrdb
    · cases hrdb
      exact ⟨"0", [("data", JVal.jstr "quit")], by rw [← hr]; rfl⟩
    · split at hrdb
      · cases hrdb
        exact ⟨"0", [("data", JVal.jarr [.jarr [.jstr "Employees"]])], by rw [← hr]; rfl⟩
      · split at hrdb
        · obtain ⟨s, tl, hs⟩ := add_employee_result_shape hrdb
          exact ⟨s, tl, by rw [← hr, hs]⟩
        · split at hrdb
          · obtain ⟨s, tl, hs⟩ := compare_employees_result_shape hrdb
            exact ⟨s, tl, by rw [← hr, hs]⟩
          · split at hrdb
            · obtain ⟨s, tl, hs⟩ := get_salaries_sum_result_shape hrdb
              exact ⟨s, tl, by rw [← hr, hs]⟩
            · cases hrdb
              exact ⟨"21", [("data", JVal.jstr "wrong instruction value")], by rw [← hr]; rfl⟩

/-- The client's dispatch on any result frame whose `result` field is a
JSON string lands in the default "unknown result code" branch. -/
theorem read_result_on_string_code (instr : Option Int) (s : String)
    (tl : List (String × JVal)) :
    read_result instr (.jobj (("result", JVal.jstr s) :: tl)) = .unknownCode (.jstr s) := by
  simp [read_result, jget, lookupKey]

/-- `strLtB` decides lexicographic order on the underlying character
lists. -/
theorem strLtB_iff {s t : String} : strLtB s t = true ↔ s.data < t.data := by
  simp [strLtB]

/-- Two strings with the same character data are equal. -/
theorem str_data_inj {s t : String} (h : s.data = t.data) : s = t := by
  cases s
  cases t
  exact congrArg String.mk h

/-- The row the `ORDER BY ... LIMIT 1` fold returns is one of the scanned
rows. -/
theorem foldl_pickMax_mem (r : Record) (rs : List Record) :
    rs.foldl pickMax r ∈ r :: rs := by
  induction rs generalizing r with
  | nil => simp [List.foldl]
  | cons y ys ih =>
    rw [List.foldl_cons]
    rcases List.mem_cons.mp (ih (pickMax r y)) with h' | h'
    · rw [h']
      unfold pickMax
      split
      · exact List.mem_cons_of_mem _ (List.mem_cons_self _ _)
      · exact List.mem_cons_self _ _
    · exact List.mem_cons_of_mem _ (List.mem_cons_of_mem _ h')

/-- No scanned row has a strictly larger `ope_salary` than the row the
fold returns: the fold computes the `ORDER BY ope_salary DESC LIMIT 1`
row. -/
theorem foldl_pickMax_max (r : Record) (rs : List Record) :
    ∀ x ∈ r :: rs, x.ope_salary.data ≤ (rs.foldl pickMax r).ope_salary.data := by
  induction rs generalizing r with
  | nil =>
    intro x hx
    rcases List.mem_cons.mp hx with rfl | h
    · exact le_refl _
    · cases h
  | cons y ys ih =>
    intro x hx
    rw [List.foldl_cons]
    have hstep := ih (pickMax r y)
    have hr_le : r.ope_salary.data ≤ (pickMax r y).ope_salary.data := by
      unfold pickMax
      split
      · rename_i hlt
        exact le_of_lt (strLtB_iff.mp hlt)
      · exact le_refl _
    have hy_le : y.ope_salary.data ≤ (pickMax r y).ope_salary.data := by
      unfold pickMax
      split
      · exact le_refl _
      · rename_i hlt
        exact not_lt.mp (fun hl => hlt (strLtB_iff.mpr hl))
    have htop := hstep _ (List.mem_cons_self _ _)
    rcases List.mem_cons.mp hx with rfl | hx'
    · exact le_trans hr_le htop
    · rcases List.mem_cons.mp hx' with rfl | hx''
      · exact le_trans hy_le htop
      · exact hstep _ (List.mem_cons_of_mem _ hx'')

/-- C2 (amended): for a COMPARE instruction on two stored ids, the server
picks the winner by comparing the stored `orderCiphertext`s as TEXT,
i.e. lexicographically by the string order of the column, and the
success data reads "Id ... has a higher salary" (not "value"). -/
theorem compare_employees_text_order
    (combine : PubKey → Int → Int → Int) (key : Option PubKey)
    (db : Db) (r1 r2 : Record) (a b : Int) (v1 v2 : JVal)
    (hnd : (db.rows.map Record.id).Nodup)
    (h1 : r1 ∈ db.rows) (h2 : r2 ∈ db.rows)
    (hida : (r1.id : Int) = a) (hidb : (r2.id : Int) = b)
    (hv1 : pyInt v1 = .ok a) (hv2 : pyInt v2 = .ok b)
    (hope : r1.ope_salary ≠ r2.ope_salary) :
    execute_instruction combine key
      (.jobj [("instruction", .jstr "3"),
              ("data", .jobj [("id_1", v1), ("id_2", v2)])]) db
    = ⟨[("result", .jstr "0"),
        ("data", .jstr ("Id " ++
          toString (if r1.ope_salary.data < r2.ope_salary.data then r2.id else r1.id)
          ++ " has a higher salary"))], db, some 3, true⟩ := by
  have hm1 : r1 ∈ db.rows.filter (fun r => ((r.id : Int) == a) || ((r.id : Int) == b)) :=
    List.mem_filter.mpr ⟨h1, by simp [hida]⟩
  have hm2 : r2 ∈ db.rows.filter (fun r => ((r.id : Int) == a) || ((r.id : Int) == b)) :=
    List.mem_filter.mpr ⟨h2, by simp [hidb]⟩
  have hchar : ∀ x ∈ db.rows.filter (fun r => ((r.id : Int) == a) || ((r.id : Int) == b)),
      x = r1 ∨ x = r2 := by
    intro x hx
    have hx' := List.mem_filter.mp hx
    have hpx : ((x.id : Int) = a) ∨ ((x.id : Int) = b) := by simpa using hx'.2
    rcases hpx with hxa | hxb
    · exact Or.inl (List.inj_on_of_nodup_map hnd hx'.1 h1 (by exact_mod_cast hxa.trans hida.symm))
    · exact Or.inr (List.inj_on_of_nodup_map hnd hx'.1 h2 (by exact_mod_cast hxb.trans hidb.symm))
  have hsel : selectTopIdByOpe a b db
      = some (if r1.ope_salary.data < r2.ope_salary.data then r2.id else r1.id) := by
    unfold selectTopIdByOpe
    cases e : db.rows.filter (fun r => ((r.id : Int) == a) || ((r.id : Int) == b)) with
    | nil =>
      rw [e] at hm1
      cases hm1
    | cons r rs =>
      show some ((rs.foldl pickMax r).id)
        = some (if r1.ope_salary.data < r2.ope_salary.data then r2.id else r1.id)
      have hmem : rs.foldl pickMax r
          ∈ db.rows.filter (fun r => ((r.id : Int) == a) || ((r.id : Int) == b)) := by
        rw [e]
        exact foldl_pickMax_mem r rs
      have hmax : ∀ x ∈ db.rows.filter (fun r => ((r.id : Int) == a) || ((r.id : Int) == b)),
          x.ope_salary.data ≤ (rs.foldl pickMax r).ope_salary.data := by
        rw [e]
        exact foldl_pickMax_max r rs
      by_cases hlt : r1.ope_salary.data < r2.ope_salary.data
      · have hm_eq : rs.foldl pickMax r = r2 := by
          rcases hchar _ hmem with h' | h'
          · exfalso
            have hle := hmax _ hm2
            rw [h'] at hle
            exact absurd hlt (not_lt.mpr hle)
          · exact h'
        rw [if_pos hlt, hm_eq]
      · have hne : r2.ope_salary.data ≠ r1.ope_salary.data := by
          intro hEq
          exact hope (str_data_inj hEq.symm)
        have hlt2 : r2.ope_salary.data < r1.ope_salary.data :=
          lt_of_le_of_ne (not_lt.mp hlt) hne
        have hm_eq : rs.foldl pickMax r = r1 := by
          rcases hchar _ hmem with h' | h'
          · exact h'
          · exfalso
            have hle := hmax _ hm1
            rw [h'] at hle
            exact absurd hlt2 (not_lt.mpr hle)
        rw [if_neg hlt, hm_eq]
  have hcmp : compare_employees
      (.jobj [("instruction", .jstr "3"), ("data", .jobj [("id_1", v1), ("id_2", v2)])]) db
      = .ok ([("result", .jstr "0"),
              ("data", .jstr ("Id " ++
                toString (if r1.ope_salary.data < r2.ope_salary.data then r2.id else r1.id)
                ++ " has a higher salary"))], db) := by
    have hdata : jgetE (JVal.jobj [("instruction", .jstr "3"),
        ("data", .jobj [("id_1", v1), ("id_2", v2)])]) "data"
        = .ok (.jobj [("id_1", v1), ("id_2", v2)]) := rfl
    have hi1 : jgetE (JVal.jobj [("id_1", v1), ("id_2", v2)]) "id_1" = .ok v1 := rfl
    have hi2 : jgetE (JVal.jobj [("id_1", v1), ("id_2", v2)]) "id_2" = .ok v2 := rfl
    simp only [compare_employees, hdata, hi1, hi2, hv1, hv2, hsel, liftO,
      Bind.bind, Except.bind]
  have hinstr : jgetE (JVal.jobj [("instruction", .jstr "3"),
      ("data", .jobj [("id_1", v1), ("id_2", v2)])]) "instruction" = .ok (.jstr "3") := rfl
  have h3 : pyInt (JVal.jstr "3") = .ok 3 := rfl
  have hcore : executeCore combine key
      (.jobj [("instruction", .jstr "3"), ("data", .jobj [("id_1", v1), ("id_2", v2)])]) db
      = .ok (3, [("result", .jstr "0"),
              ("data", .jstr ("Id " ++
                toString (if r1.ope_salary.data < r2.ope_salary.data then r2.id else r1.id)
                ++ " has a higher salary"))], db) := by
    simp only [executeCore, hinstr, h3, Bind.bind, Except.bind, dispatchHandler]
    norm_num
    simp only [hcmp, Except.bind]
  simp only [execute_instruction, hcore]

/-- C2 (counterexample to the claim as stated): with stored
orderCiphertexts "9" (id 1) and "10" (id 2), id 2 is numerically larger,
yet the server answers "Id 1 has a higher salary": the TEXT column is
ordered lexicographically ("10" sorts before "9") and the wording is
"salary", not "value". -/
theorem compare_text_order_counterexample :
    execute_instruction combine0 (some pk0)
      (.jobj [("instruction", .jstr "3"),
              ("data", .jobj [("id_1", .jstr "1"), ("id_2", .jstr "2")])])
      ⟨[⟨1, "pa", "9"⟩, ⟨2, "pb", "10"⟩], 3⟩
    = ⟨[("result", .jstr "0"), ("data", .jstr "Id 1 has a higher salary")],
       ⟨[⟨1, "pa", "9"⟩, ⟨2, "pb", "10"⟩], 3⟩, some 3, true⟩
    ∧ ((9 : Int) < 10)
    ∧ strLtB "10" "9" = true :=
  ⟨rfl, by norm_num, rfl⟩

/-- Witness instantiating `compare_employees_text_order` on a concrete
two-row store. -/
theorem compare_employees_text_order_witness :
    execute_instruction combine0 (some pk0)
      (.jobj [("instruction", .jstr "3"),
              ("data", .jobj [("id_1", .jstr "1"), ("id_2", .jnum 2)])])
      ⟨[⟨1, "pa", "5"⟩, ⟨2, "pb", "7"⟩], 3⟩
    = ⟨[("result", .jstr "0"),
        ("data", .jstr ("Id " ++
          toString (if ("5" : String).data < ("7" : String).data then (2 : Nat) else 1)
          ++ " has a higher salary"))],
       ⟨[⟨1, "pa", "5"⟩, ⟨2, "pb", "7"⟩], 3⟩, some 3, true⟩ :=
  compare_employees_text_order combine0 (some pk0)
    ⟨[⟨1, "pa", "5"⟩, ⟨2, "pb", "7"⟩], 3⟩ ⟨1, "pa", "5"⟩ ⟨2, "pb", "7"⟩ 1 2
    (.jstr "1") (.jnum 2) (by decide) (by decide) (by decide)
    rfl rfl rfl rfl (by decide)

/-- With distinct stored ids, at most one row matches the doubled
predicate `id = a OR id = a` of the SUM query when both requested ids
are the same. -/
theorem filter_dup_id_length_le_one (rows : List Record) (a : Int)
    (hnd : (rows.map Record.id).Nodup) :
    (rows.filter (fun r => ((r.id : Int) == a) || ((r.id : Int) == a))).length ≤ 1 := by
  induction rows with
  | nil => simp
  | cons r rs ih =>
    rw [List.map_cons, List.nodup_cons] at hnd
    rw [List.filter_cons]
    by_cases h : ((r.id : Int) = a)
    · rw [if_pos (by simp [h])]
      have hnil : rs.filter (fun r => ((r.id : Int) == a) || ((r.id : Int) == a)) = [] :=
        List.filter_eq_nil_iff.mpr (by
          intro x hx
          simp only [Bool.or_self, beq_iff_eq]
          intro hxa
          have hxid : x.id = r.id := by
            have hcast : (x.id : Int) = (r.id : Int) := by rw [hxa, h]
            exact_mod_cast hcast
          exact hnd.1 (hxid ▸ List.mem_map_of_mem Record.id hx))
      rw [hnil]
      simp
    · rw [if_neg (by simp [h])]
      exact ih hnd.2

/-- C10: a SUM instruction whose two ids are equal (with distinct stored
ids) or that matches fewer than two rows makes the handler's second row
access raise, so the round reports execution failure (`result '2'`) and
the session continues; in particular SUM(id, id) never answers with
twice a stored salary. -/
theorem sum_duplicate_or_missing_ids_fails_code2
    (combine : PubKey → Int → Int → Int) (key : Option PubKey)
    (i : Option Int) (db : Db) (rest : List Ev) (a b : Int) (v1 v2 : JVal)
    (hv1 : pyInt v1 = .ok a) (hv2 : pyInt v2 = .ok b)
    (hnd : (db.rows.map Record.id).Nodup)
    (hcase : a = b ∨ (selectPheByIds a b db).length < 2)
    (hi : i ≠ some 0) :
    execute_instruction combine key
      (.jobj [("instruction", .jstr "4"), ("data", .jobj [("id_1", v1), ("id_2", v2)])]) db
      = ⟨[("result", .jstr "2")], db, none, false⟩ ∧
    sessionRun combine key i db
      (⟨some (.jobj [("instruction", .jstr "4"),
          ("data", .jobj [("id_1", v1), ("id_2", v2)])]), true, true⟩ :: rest)
      = ([("result", JVal.jstr "2")] :: (sessionRun combine key none db rest).1,
         (sessionRun combine key none db rest).2) := by
  have hlen : (selectPheByIds a b db).length < 2 := by
    rcases hcase with rfl | h
    · have hle := filter_dup_id_length_le_one db.rows a hnd
      simp only [selectPheByIds, List.length_map]
      omega
    · exact h
  have hsum : get_salaries_sum combine key
      (.jobj [("instruction", .jstr "4"), ("data", .jobj [("id_1", v1), ("id_2", v2)])]) db
      = .error () := by
    have hdata : jgetE (JVal.jobj [("instruction", .jstr "4"),
        ("data", .jobj [("id_1", v1), ("id_2", v2)])]) "data"
        = .ok (.jobj [("id_1", v1), ("id_2", v2)]) := rfl
    have hi1 : jgetE (JVal.jobj [("id_1", v1), ("id_2", v2)]) "id_1" = .ok v1 := rfl
    have hi2 : jgetE (JVal.jobj [("id_1", v1), ("id_2", v2)]) "id_2" = .ok v2 := rfl
    simp only [get_salaries_sum, hdata, hi1, hi2, hv1, hv2, Bind.bind, Except.bind]
    cases hres : selectPheByIds a b db with
    | nil => simp [liftO, List.get?, Except.bind]
    | cons x xs =>
      cases xs with
      | nil =>
        cases hp : pyParseInt x with
        | none => simp [liftO, List.get?, hp, Except.bind]
        | some c1 => simp [liftO, List.get?, hp, Except.bind]
      | cons y ys =>
        rw [hres] at hlen
        simp only [List.length_cons] at hlen
        omega
  have hinstr : jgetE (JVal.jobj [("instruction", .jstr "4"),
      ("data", .jobj [("id_1", v1), ("id_2", v2)])]) "instruction" = .ok (.jstr "4") := rfl
  have h4 : pyInt (JVal.jstr "4") = .ok 4 := rfl
  have hcore : executeCore combine key
      (.jobj [("instruction", .jstr "4"), ("data", .jobj [("id_1", v1), ("id_2", v2)])]) db
      = .error () := by
    simp only [executeCore, hinstr, h4, Bind.bind, Except.bind, dispatchHandler]
    norm_num
    simp only [hsum, Except.bind]
  have hexec : execute_instruction combine key
      (.jobj [("instruction", .jstr "4"), ("data", .jobj [("id_1", v1), ("id_2", v2)])]) db
      = ⟨[("result", .jstr "2")], db, none, false⟩ := by
    simp only [execute_instruction, hcore]
  refine ⟨hexec, ?_⟩
  rw [sessionRun_exec_cons combine key i db _ rest hi, hexec]

/-- Witness instantiating `sum_duplicate_or_missing_ids_fails_code2` at
SUM(1, 1) on a one-row store. -/
theorem sum_duplicate_ids_witness :
    execute_instruction combine0 (some pk0)
      (.jobj [("instruction", .jstr "4"),
              ("data", .jobj [("id_1", .jstr "1"), ("id_2", .jstr "1")])])
      ⟨[⟨1, "10000", "5100"⟩], 2⟩
      = ⟨[("result", .jstr "2")], ⟨[⟨1, "10000", "5100"⟩], 2⟩, none, false⟩ ∧
    sessionRun combine0 (some pk0) none ⟨[⟨1, "10000", "5100"⟩], 2⟩
      [⟨some (.jobj [("instruction", .jstr "4"),
          ("data", .jobj [("id_1", .jstr "1"), ("id_2", .jstr "1")])]), true, true⟩]
      = ([[("result", JVal.jstr "2")]], false) :=
  sum_duplicate_or_missing_ids_fails_code2 combine0 (some pk0) none
    ⟨[⟨1, "10000", "5100"⟩], 2⟩ [] 1 1 (.jstr "1") (.jstr "1")
    rfl rfl (by decide) (Or.inl rfl) (by decide)

/-- C4: when the handler of an instruction raises (missing field, bad id,
store failure), `execute_instruction` catches it at the boundary, the
round reports `result '2'`, and the dispatch loop goes on with the next
round — a failed instruction is never session-fatal. -/
theorem exec_exception_yields_code2_session_continues
    (combine : PubKey → Int → Int → Int) (key : Option PubKey)
    (i : Option Int) (db : Db) (j : JVal) (rest : List Ev)
    (hfail : executeCore combine key j db = .error ())
    (hi : i ≠ some 0) :
    execute_instruction combine key j db = ⟨[("result", .jstr "2")], db, none, false⟩ ∧
    sessionRun combine key i db (⟨some j, true, true⟩ :: rest)
      = ([("result", JVal.jstr "2")] :: (sessionRun combine key none db rest).1,
         (sessionRun combine key none db rest).2) := by
  have hexec : execute_instruction combine key j db
      = ⟨[("result", .jstr "2")], db, none, false⟩ := by
    simp only [execute_instruction, hfail]
  refine ⟨hexec, ?_⟩
  rw [sessionRun_exec_cons combine key i db j rest hi, hexec]

/-- Witness instantiating `exec_exception_yields_code2_session_continues`
on the empty frame (missing `instruction` field). -/
theorem exec_exception_yields_code2_witness :
    execute_instruction combine0 (some pk0) (.jobj []) db0
      = ⟨[("result", JVal.jstr "2")], db0, none, false⟩ ∧
    sessionRun combine0 (some pk0) none db0 [⟨some (.jobj []), true, true⟩]
      = ([[("result", JVal.jstr "2")]], false) :=
  exec_exception_yields_code2_session_continues combine0 (some pk0) none db0
    (.jobj []) [] rfl (by decide)

/-- C6 (counterexample to the claim as stated): a frame that parses fine
as a mapping but lacks the required `instruction` field is answered with
`result '2'` (execution failure), not the claimed result code 1. -/
theorem missing_field_yields_code2_counterexample :
    execute_instruction combine0 (some pk0) (.jobj [("data", .jobj [])]) db0
      = ⟨[("result", JVal.jstr "2")], db0, none, false⟩
    ∧ [("result", JVal.jstr "2")] ≠ [("result", JVal.jstr "1")] :=
  ⟨rfl, by simp⟩

/-- C6 (amended): only a frame the server cannot decode at all yields
`result '1'` (and the session continues); a decodable frame missing the
required field instead yields `result '2'` — and the session continues
in that case as well. -/
theorem decode_failure_code1_missing_field_code2
    (combine : PubKey → Int → Int → Int) (key : Option PubKey)
    (i : Option Int) (db : Db) (j : JVal) (rest : List Ev)
    (hi : i ≠ some 0) (hj : jget j "instruction" = none) :
    sessionRun combine key i db (⟨none, true, true⟩ :: rest)
      = ([("result", JVal.jstr "1")] :: (sessionRun combine key none db rest).1,
         (sessionRun combine key none db rest).2) ∧
    execute_instruction combine key j db = ⟨[("result", .jstr "2")], db, none, false⟩ ∧
    sessionRun combine key i db (⟨some j, true, true⟩ :: rest)
      = ([("result", JVal.jstr "2")] :: (sessionRun combine key none db rest).1,
         (sessionRun combine key none db rest).2) := by
  have hfail : executeCore combine key j db = .error () := by
    have hje : jgetE j "instruction" = .error () := by
      simp [jgetE, hj]
    simp only [executeCore, hje, Bind.bind, Except.bind]
  have hexec : execute_instruction combine key j db
      = ⟨[("result", .jstr "2")], db, none, false⟩ := by
    simp only [execute_instruction, hfail]
  refine ⟨sessionRun_badread_cons combine key i db rest hi, hexec, ?_⟩
  rw [sessionRun_exec_cons combine key i db j rest hi, hexec]

/-- Witness instantiating `decode_failure_code1_missing_field_code2` on
the field-less mapping. -/
theorem decode_failure_code1_witness :
    sessionRun combine0 (some pk0) none db0 [⟨none, true, true⟩]
      = ([[("result", JVal.jstr "1")]], false) ∧
    execute_instruction combine0 (some pk0) (.jobj []) db0
      = ⟨[("result", JVal.jstr "2")], db0, none, false⟩ ∧
    sessionRun combine0 (some pk0) none db0 [⟨some (.jobj []), true, true⟩]
      = ([[("result", JVal.jstr "2")]], false) :=
  decode_failure_code1_missing_field_code2 combine0 (some pk0) none db0
    (.jobj []) [] (by decide) rfl

/-- C7 (counterexample to the claim as stated): when both the original
send and the degraded code-3 retry fail, the dispatch loop does NOT
proceed to the next read — the unguarded second `send` raises, the
exception unwinds `app`'s loop and the session ends: the subsequent
round is never processed and nothing is delivered. -/
theorem double_send_failure_aborts_session_counterexample :
    sessionRun combine0 (some pk0) none db0
      [⟨some (.jobj [("instruction", .jstr "1")]), false, false⟩,
       ⟨some (.jobj [("instruction", .jstr "1")]), true, true⟩]
      = ([], true) := rfl

/-- C7 (amended): a failed result send is retried exactly once with the
degraded `result '3'` frame, after which the loop proceeds; but if that
retry also fails, the exception unwinds and the session terminates. -/
theorem send_failure_single_retry_then_fatal
    (combine : PubKey → Int → Int → Int) (key : Option PubKey)
    (i : Option Int) (db : Db) (j : JVal) (rest : List Ev)
    (hi : i ≠ some 0) :
    sessionRun combine key i db (⟨some j, false, true⟩ :: rest)
      = ([("result", JVal.jstr "3")]
          :: (sessionRun combine key none (execute_instruction combine key j db).db rest).1,
         (sessionRun combine key none (execute_instruction combine key j db).db rest).2) ∧
    sessionRun combine key i db (⟨some j, false, false⟩ :: rest) = ([], true) := by
  constructor
  · simp only [sessionRun]
    rw [if_neg hi]
    simp
  · simp only [sessionRun]
    rw [if_neg hi]
    simp

/-- Witness instantiating `send_failure_single_retry_then_fatal`. -/
theorem send_failure_single_retry_witness :
    sessionRun combine0 (some pk0) none db0
      [⟨some (.jobj [("instruction", .jstr "1")]), false, true⟩]
      = ([[("result", JVal.jstr "3")]], false) ∧
    sessionRun combine0 (some pk0) none db0
      [⟨some (.jobj [("instruction", .jstr "1")]), false, false⟩]
      = ([], true) :=
  send_failure_single_retry_then_fatal combine0 (some pk0) none db0
    (.jobj [("instruction", .jstr "1")]) [] (by decide)

/-- C8: a well-formed instruction whose code is outside 0-4 is answered
with `result '21'` and the message "wrong instruction value", and the
session remains usable: the rest of the session behaves exactly as from
a fresh (non-quit) state on the unchanged store. -/
theorem unknown_instruction_code_yields_21_session_usable
    (combine : PubKey → Int → Int → Int) (key : Option PubKey)
    (i : Option Int) (db : Db) (rest : List Ev) (j v : JVal) (c : Int)
    (hv : jgetE j "instruction" = .ok v) (hc : pyInt v = .ok c)
    (h0 : c ≠ 0) (h1 : c ≠ 1) (h2 : c ≠ 2) (h3 : c ≠ 3) (h4 : c ≠ 4)
    (hi : i ≠ some 0) :
    execute_instruction combine key j db = ⟨wrongInstructionResult, db, some c, true⟩ ∧
    sessionRun combine key i db (⟨some j, true, true⟩ :: rest)
      = (wrongInstructionResult :: (sessionRun combine key none db rest).1,
         (sessionRun combine key none db rest).2) := by
  have hcore : executeCore combine key j db = .ok (c, wrongInstructionResult, db) := by
    simp only [executeCore, hv, hc, Bind.bind, Except.bind, dispatchHandler,
      if_neg h0, if_neg h1, if_neg h2, if_neg h3, if_neg h4]
  have hexec : execute_instruction combine key j db
      = ⟨wrongInstructionResult, db, some c, true⟩ := by
    simp only [execute_instruction, hcore]
  refine ⟨hexec, ?_⟩
  rw [sessionRun_exec_cons combine key i db j rest hi, hexec]
  rw [sessionRun_state_irrel combine key (some c) none db rest
    (fun hcc => h0 (Option.some.inj hcc)) (by simp)]

/-- Witness instantiating
`unknown_instruction_code_yields_21_session_usable` at code 99. -/
theorem unknown_instruction_code_99_witness :
    execute_instruction combine0 (some pk0)
      (.jobj [("instruction", .jstr "99")]) db0
      = ⟨wrongInstructionResult, db0, some 99, true⟩ ∧
    sessionRun combine0 (some pk0) none db0
      [⟨some (.jobj [("instruction", .jstr "99")]), true, true⟩]
      = ([wrongInstructionResult], false) :=
  unknown_instruction_code_yields_21_session_usable combine0 (some pk0) none db0 []
    (.jobj [("instruction", .jstr "99")]) (.jstr "99") 99 rfl rfl
    (by decide) (by decide) (by decide) (by decide) (by decide) (by decide)

/-- C3: the frame the client writes for any instruction depends on the
entered salary only through the two ciphertexts: two salaries with the
same `phe` and `pyope` encryptions produce byte-identical frames, for
every instruction code — no plaintext salary reaches the wire. -/
theorem client_frames_depend_only_on_ciphertexts
    (encA encO : Int → Int) (code : Int) (s s' : Int) (id1 id2 : String)
    (hA : encA s = encA s') (hO : encO s = encO s') :
    clientFrame encA encO code s id1 id2 = clientFrame encA encO code s' id1 id2 := by
  simp only [clientFrame, hA, hO]

/-- Witness instantiating `client_frames_depend_only_on_ciphertexts` with
constant encryptions and two different salaries. -/
theorem client_frames_witness :
    clientFrame (fun _ => 7) (fun _ => 9) 2 5000 "" ""
      = clientFrame (fun _ => 7) (fun _ => 9) 2 7000 "" "" :=
  client_frames_depend_only_on_ciphertexts (fun _ => 7) (fun _ => 9) 2 5000 7000 "" ""
    rfl rfl

/-- C5 (counterexample to the claim as stated): with key generation
failing, the client trace still begins with the network connect (which
precedes key generation in `app`) and still reaches the instruction
loop; with an unusable public-key frame, the server rebuild fails yet
its trace also reaches the instruction loop. -/
theorem setup_failure_not_fatal_counterexample :
    clientSetupTrace false
      = [.connect, .keygenFailed, .sendKeyFailed, .enterLoop] ∧
    serverSetupTrace (.jobj [])
      = [.acceptConn, .keyRebuildFailed, .connectDb, .enterLoop] ∧
    rebuild_pailler_public_key (.jobj []) = none :=
  ⟨rfl, rfl, rfl⟩

/-- C5 (amended): key-generation failure on the client and rebuild
failure on the server are caught and only logged — never fatal: the
client has already connected before generating keys and always enters
the instruction loop, and the server always enters the instruction loop
even with no rebuilt public key. -/
theorem setup_failures_swallowed_session_proceeds (b : Bool) (kf : JVal) :
    (clientSetupTrace b).head? = some .connect ∧
    CEvent.enterLoop ∈ clientSetupTrace b ∧
    SEvent.enterLoop ∈ serverSetupTrace kf := by
  refine ⟨?_, ?_, ?_⟩
  · cases b <;> rfl
  · cases b <;> simp [clientSetupTrace]
  · unfold serverSetupTrace
    cases rebuild_pailler_public_key kf <;> simp

/-- The three client frames of the spec's end-to-end scenario ADD(5000),
ADD(7000), SUM(1, 2), with all sends succeeding. -/
def c1Events : List Ev :=
  [ ⟨clientFrame encAdditive0 encOrder0 2 5000 "" "", true, true⟩,
    ⟨clientFrame encAdditive0 encOrder0 2 7000 "" "", true, true⟩,
    ⟨clientFrame encAdditive0 encOrder0 4 0 "1" "2", true, true⟩ ]

/-- C1: on the end-to-end run ADD(5000), ADD(7000), SUM(1, 2) the server
does return `result '0'` with the homomorphic combination of the two
stored additive ciphertexts — a ciphertext that decrypts to exactly
12000 — but the client, matching the received JSON *string* "0" against
the integer literal 0, falls through to its default branch and reports
an unknown result code instead of decrypting and displaying 12000. -/
theorem sum_ciphertext_correct_but_client_dispatch_unknown :
    (sessionRun combine0 (some pk0) none db0 c1Events).1
      = [[("result", .jstr "0"), ("data", .jstr "OK")],
         [("result", .jstr "0"), ("data", .jstr "OK")],
         [("result", .jstr "0"),
          ("data", .jnum (combine0 pk0 (encAdditive0 5000) (encAdditive0 7000)))]]
    ∧ decAdditive0 (combine0 pk0 (encAdditive0 5000) (encAdditive0 7000)) = 12000
    ∧ read_result (some 4)
        (.jobj [("result", .jstr "0"),
                ("data", .jnum (combine0 pk0 (encAdditive0 5000) (encAdditive0 7000)))])
        = .unknownCode (.jstr "0") :=
  ⟨rfl, rfl, rfl⟩

/-- C9: every result mapping the server session ever sends carries its
code as a JSON string, and the client's integer-literal dispatch
therefore lands in the default "unknown result code" branch on every
one of them, whatever instruction is pending. -/
theorem server_result_codes_strings_client_unknown
    (combine : PubKey → Int → Int → Int) (key : Option PubKey)
    (i : Option Int) (db : Db) (evs : List Ev) (instr : Option Int)
    (r : List (String × JVal)) (hr : r ∈ (sessionRun combine key i db evs).1) :
    ∃ s, jget (.jobj r) "result" = some (.jstr s) ∧
         read_result instr (.jobj r) = .unknownCode (.jstr s) := by
  induction evs generalizing i db with
  | nil => simp [sessionRun] at hr
  | cons ev rest ih =>
    simp only [sessionRun] at hr
    by_cases hi : i = some 0
    · rw [if_pos hi] at hr
      simp at hr
    · rw [if_neg hi] at hr
      cases hrecv : ev.recv with
      | none =>
        rw [hrecv] at hr
        by_cases h1 : ev.send1 = true
        · rw [if_pos h1] at hr
          rcases (by simpa using hr :
              r = [("result", JVal.jstr "1")] ∨ r ∈ (sessionRun combine key none db rest).1)
            with rfl | hr'
          · exact ⟨"1", rfl, read_result_on_string_code instr "1" []⟩
          · exact ih none db hr'
        · by_cases h2 : ev.send2 = true
          · rw [if_neg h1, if_pos h2] at hr
            rcases (by simpa using hr :
                r = [("result", JVal.jstr "3")] ∨ r ∈ (sessionRun combine key none db rest).1)
              with rfl | hr'
            · exact ⟨"3", rfl, read_result_on_string_code instr "3" []⟩
            · exact ih none db hr'
          · rw [if_neg h1, if_neg h2] at hr
            simp at hr
      | some j =>
        rw [hrecv] at hr
        by_cases h1 : ev.send1 = true
        · rcases (by simpa [h1] using hr :
              r = (execute_instruction combine key j db).result ∨
                r ∈ (sessionRun combine key (execute_instruction combine key j db).instruction
                      (execute_instruction combine key j db).db rest).1)
            with rfl | hr'
          · obtain ⟨s, tl, hs⟩ := execute_result_shape combine key j db
            rw [hs]
            exact ⟨s, rfl, read_result_on_string_code instr s tl⟩
          · exact ih _ _ hr'
        · by_cases h2 : ev.send2 = true
          · rcases (by simpa [h1, h2] using hr :
                r = [("result", JVal.jstr "3")] ∨
                  r ∈ (sessionRun combine key none (execute_instruction combine key j db).db rest).1)
              with rfl | hr'
            · exact ⟨"3", rfl, read_result_on_string_code instr "3" []⟩
            · exact ih _ _ hr'
          · simp [h1, h2] at hr

/-- Witness instantiating `server_result_codes_strings_client_unknown` on
the quit round: even the successful `result '0'` answer is reported by
the client as an unknown result code. -/
theorem server_result_codes_witness :
    ∃ s, jget (.jobj [("result", JVal.jstr "0"), ("data", JVal.jstr "quit")]) "result"
        = some (.jstr s) ∧
      read_result (some 4)
        (.jobj [("result", JVal.jstr "0"), ("data", JVal.jstr "quit")])
        = .unknownCode (.jstr s) :=
  server_result_codes_strings_client_unknown combine0 (some pk0) none db0
    [⟨some (.jobj [("instruction", .jstr "0")]), true, true⟩] (some 4)
    [("result", JVal.jstr "0"), ("data", JVal.jstr "quit")]
    (List.Mem.head _)

end DbSec
